import Mathlib

/-!
Shallow embedding of the mock-dispatch engine of the `@hoomanlogic/http`
package (`src/mock.ts`), together with proofs about the behaviour of its
exact-match lookup, pattern scan, traffic recording, dump serialization and
response resolution.

Modelling conventions:
* JavaScript objects used as string-keyed maps are embedded as association
  lists (`List (String × _)`).  Property assignment keeps the original
  position of an existing key and appends new keys, matching the JS
  enumeration order of non-integer-indexed string keys.
* JavaScript numbers are embedded as `Int`; the opportunistic `JSON.parse`
  model recognises the integer fragment of JSON numbers (a body or parameter
  whose decoded text is a fractional or exponent-carrying number literal is
  treated as an unparseable string by the model).  None of the verified
  claims depends on non-integer numerics.
* `decodeURIComponent` is modelled for single-byte percent escapes
  (`%XX` with two hex digits); other characters pass through unchanged.
* Handlers are total Lean functions returning `Option MockedResponse`,
  mirroring "return a response marker, or `undefined` to decline".
-/

namespace HttpMock

/-- Runtime values produced by decoding query/path parameters and JSON
bodies: the image of the modelled `JSON.parse` plus plain strings. -/
inductive JsValue where
  | null : JsValue
  | bool (b : Bool) : JsValue
  | num (n : Int) : JsValue
  | str (s : String) : JsValue
  | arr (elems : List JsValue) : JsValue
  | obj (fields : List (String × JsValue)) : JsValue

/-- JavaScript `String.prototype.split` with a single-character separator,
on character lists: `"" ↦ [""]`, separators delimit (possibly empty)
groups. -/
def splitOnChar (sep : Char) : List Char → List (List Char)
  | [] => [[]]
  | c :: rest =>
    match splitOnChar sep rest with
    | [] => [[]]
    | g :: gs => if c = sep then [] :: g :: gs else (c :: g) :: gs

/-- JavaScript `url.split(sep)` for a single-character separator. -/
def jsSplit (sep : Char) (s : String) : List String :=
  (splitOnChar sep s.data).map String.mk

/-- JavaScript `s.toLowerCase()` (character-wise). -/
def jsToLower (s : String) : String :=
  String.mk (s.data.map Char.toLower)

/-- Lexicographic comparison of character lists, as JavaScript's default
`Array.prototype.sort` comparator orders string keys. -/
def charListLe : List Char → List Char → Bool
  | [], _ => true
  | _ :: _, [] => false
  | a :: as, b :: bs => if a = b then charListLe as bs else decide (a < b)

/-- String order used by `Object.keys(..).sort()`. -/
def strLe (a b : String) : Bool := charListLe a.data b.data

/-- JavaScript `s.includes(c)` for a single character. -/
def strContains (s : String) (c : Char) : Bool := s.data.contains c

/-- JavaScript `s[0] === ':'`: first-character test (false on the empty
string, whose `s[0]` is `undefined`). -/
def headIsColon (s : String) : Bool :=
  match s.data with
  | c :: _ => c = ':'
  | [] => false

/-- JavaScript `s.slice(1)`. -/
def strDrop1 (s : String) : String := String.mk s.data.tail

/-- Numeric value of a hexadecimal digit character. -/
def hexDigit? (c : Char) : Option Nat :=
  if '0' ≤ c ∧ c ≤ '9' then some (c.toNat - '0'.toNat)
  else if 'a' ≤ c ∧ c ≤ 'f' then some (c.toNat - 'a'.toNat + 10)
  else if 'A' ≤ c ∧ c ≤ 'F' then some (c.toNat - 'A'.toNat + 10)
  else none

/-- Character-list worker for `decodeURIComponent`: decodes `%XX` escapes,
leaves everything else unchanged. -/
def percentDecodeChars : List Char → List Char
  | [] => []
  | '%' :: h :: l :: rest =>
    match hexDigit? h, hexDigit? l with
    | some a, some b => Char.ofNat (16 * a + b) :: percentDecodeChars rest
    | _, _ => '%' :: percentDecodeChars (h :: l :: rest)
  | c :: rest => c :: percentDecodeChars rest

/-- Model of JavaScript `decodeURIComponent` (single-byte escapes). -/
def decodeURIComponent (s : String) : String :=
  String.mk (percentDecodeChars s.data)

/-- The opening-brace character (written via its code point). -/
def obrace : Char := Char.ofNat 123

/-- The closing-brace character (written via its code point). -/
def cbrace : Char := Char.ofNat 125

/-- Skip JSON insignificant whitespace. -/
def skipWs : List Char → List Char
  | c :: rest =>
    if c = ' ' ∨ c = '\t' ∨ c = '\n' ∨ c = '\r' then skipWs rest else c :: rest
  | [] => []

/-- Parse the character content of a JSON string literal after the opening
quote; returns the decoded characters and the remainder after the closing
quote. -/
def jsonStringChars : List Char → Option (List Char × List Char)
  | [] => none
  | '"' :: rest => some ([], rest)
  | '\\' :: 'u' :: a :: b :: c :: d :: rest =>
    match hexDigit? a, hexDigit? b, hexDigit? c, hexDigit? d with
    | some w, some x, some y, some z =>
      match jsonStringChars rest with
      | some (cs, r) => some (Char.ofNat (((w * 16 + x) * 16 + y) * 16 + z) :: cs, r)
      | none => none
    | _, _, _, _ => none
  | '\\' :: e :: rest =>
    match
      (match e with
      | '"' => some '"'
      | '\\' => some '\\'
      | '/' => some '/'
      | 'b' => some (Char.ofNat 8)
      | 'f' => some (Char.ofNat 12)
      | 'n' => some '\n'
      | 'r' => some '\r'
      | 't' => some '\t'
      | _ => none) with
    | some ch =>
      match jsonStringChars rest with
      | some (cs, r) => some (ch :: cs, r)
      | none => none
    | none => none
  | c :: rest =>
    match jsonStringChars rest with
    | some (cs, r) => some (c :: cs, r)
    | none => none

/-- Decimal value of a digit string. -/
def digitsToNat (ds : List Char) : Nat :=
  ds.foldl (fun acc c => acc * 10 + (c.toNat - '0'.toNat)) 0

/-- Parse a JSON number (integer fragment: optional minus, digits, no
leading zeros, fraction/exponent rejected by the model). -/
def jsonNumber (cs : List Char) : Option (Int × List Char) :=
  let (neg, cs1) := match cs with
    | '-' :: rest => (true, rest)
    | _ => (false, cs)
  let ds := cs1.takeWhile (·.isDigit)
  let rest := cs1.dropWhile (·.isDigit)
  if ds.isEmpty then none
  else if ds.length > 1 ∧ ds.headD '0' = '0' then none
  else
    match rest with
    | '.' :: _ => none
    | 'e' :: _ => none
    | 'E' :: _ => none
    | _ => some (if neg then -(digitsToNat ds : Int) else (digitsToNat ds : Int), rest)

mutual

/-- Fueled recursive-descent parser for one JSON value (no leading
whitespace expected). -/
def jsonValue : Nat → List Char → Option (JsValue × List Char)
  | 0, _ => none
  | fuel + 1, cs =>
    match cs with
    | 'n' :: 'u' :: 'l' :: 'l' :: rest => some (.null, rest)
    | 't' :: 'r' :: 'u' :: 'e' :: rest => some (.bool true, rest)
    | 'f' :: 'a' :: 'l' :: 's' :: 'e' :: rest => some (.bool false, rest)
    | '"' :: rest =>
      match jsonStringChars rest with
      | some (scs, r) => some (.str (String.mk scs), r)
      | none => none
    | '[' :: rest =>
      match skipWs rest with
      | ']' :: r2 => some (.arr [], r2)
      | r1 =>
        match jsonArrayItems fuel r1 with
        | some (xs, r) => some (.arr xs, r)
        | none => none
    | c :: rest =>
      if c = obrace then
        match skipWs rest with
        | c2 :: r2 =>
          if c2 = cbrace then some (.obj [], r2)
          else
            match jsonObjectItems fuel (c2 :: r2) with
            | some (fs, r) => some (.obj fs, r)
            | none => none
        | [] => none
      else
        match jsonNumber (c :: rest) with
        | some (n, r) => some (.num n, r)
        | none => none
    | [] => none

/-- Comma-separated JSON array items up to the closing bracket. -/
def jsonArrayItems : Nat → List Char → Option (List JsValue × List Char)
  | 0, _ => none
  | fuel + 1, cs =>
    match jsonValue fuel cs with
    | none => none
    | some (v, r) =>
      match skipWs r with
      | ',' :: r2 =>
        match jsonArrayItems fuel (skipWs r2) with
        | some (xs, r3) => some (v :: xs, r3)
        | none => none
      | ']' :: r2 => some ([v], r2)
      | _ => none

/-- Comma-separated JSON object members up to the closing brace. -/
def jsonObjectItems : Nat → List Char → Option (List (String × JsValue) × List Char)
  | 0, _ => none
  | fuel + 1, cs =>
    match cs with
    | '"' :: rest =>
      match jsonStringChars rest with
      | none => none
      | some (kcs, r) =>
        match skipWs r with
        | ':' :: r2 =>
          match jsonValue fuel (skipWs r2) with
          | none => none
          | some (v, r3) =>
            match skipWs r3 with
            | ',' :: r4 =>
              match jsonObjectItems fuel (skipWs r4) with
              | some (fs, r5) => some ((String.mk kcs, v) :: fs, r5)
              | none => none
            | c :: r4 =>
              if c = cbrace then some ([(String.mk kcs, v)], r4) else none
            | [] => none
        | _ => none
    | _ => none

end

/-- Model of `JSON.parse`: `none` corresponds to the JavaScript call
throwing a `SyntaxError`. -/
def jsonParse (s : String) : Option JsValue :=
  let cs := skipWs s.data
  match jsonValue (2 * cs.length + 2) cs with
  | some (v, r) => if skipWs r = [] then some v else none
  | none => none

/-- JSON string-literal escaping for `JSON.stringify` (the characters the
modelled inputs can contain). -/
def escapeJsonChar (c : Char) : String :=
  if c = '"' then "\\\""
  else if c = '\\' then "\\\\"
  else if c = '\n' then "\\n"
  else if c = '\r' then "\\r"
  else if c = '\t' then "\\t"
  else String.singleton c

/-- Render a string as a quoted JSON string literal. -/
def quoteJson (s : String) : String :=
  "\"" ++ String.join (s.data.map escapeJsonChar) ++ "\""

/-- Model of compact `JSON.stringify` on runtime values. -/
def jsonStringify : JsValue → String
  | .null => "null"
  | .bool true => "true"
  | .bool false => "false"
  | .num n => toString n
  | .str s => quoteJson s
  | .arr xs => "[" ++ String.intercalate "," (xs.attach.map fun x => jsonStringify x.1) ++ "]"
  | .obj fs =>
      "\x7b" ++
        String.intercalate ","
          (fs.attach.map fun f => quoteJson f.1.1 ++ ":" ++ jsonStringify f.1.2) ++
      "\x7d"
decreasing_by
  · have := List.sizeOf_lt_of_mem x.2
    simp [JsValue.arr.sizeOf_spec]
    omega
  · obtain ⟨⟨a, b⟩, hm⟩ := f
    have := List.sizeOf_lt_of_mem hm
    simp [JsValue.obj.sizeOf_spec]
    simp [Prod.mk.sizeOf_spec] at this
    omega

/-- Source `parseParam` (`mock.ts`): percent-decode, then opportunistically
`JSON.parse`; a parse failure keeps the decoded string. -/
def parseParam (value : String) : JsValue :=
  let param := decodeURIComponent value
  match jsonParse param with
  | some v => v
  | none => .str param

/-- Association-list lookup, modelling JavaScript property read
`m[k]` (`none` = `undefined`). -/
def alLookup {α : Type _} : List (String × α) → String → Option α
  | [], _ => none
  | (k', v) :: rest, k => if k' = k then some v else alLookup rest k

/-- Association-list write, modelling JavaScript property assignment
`m[k] = v`: an existing key keeps its position, a new key is appended
(JS enumeration order for string keys). -/
def alInsert {α : Type _} : List (String × α) → String → α → List (String × α)
  | [], k, v => [(k, v)]
  | (k', v') :: rest, k, v =>
    if k' = k then (k, v) :: rest else (k', v') :: alInsert rest k v

/-- Parameter mapping passed to handlers. -/
abbrev Params := List (String × JsValue)

/-- Source `getQueryParams` (`mock.ts`): split the query string on `&` and
`=`, percent-decode keys, `parseParam` values; a missing `=` gives the
JavaScript string coercion `"undefined"`; empty keys are skipped. -/
def getQueryParams (url : String) : Params :=
  let query := (jsSplit '?' url).get? 1
  let vars := match query with
    | some q => if q = "" then [] else jsSplit '&' q
    | none => []
  vars.foldl
    (fun acc v =>
      let parts := jsSplit '=' v
      let key := parts.headD ""
      let value := parts.get? 1
      if key = "" then acc
      else alInsert acc (decodeURIComponent key) (parseParam (value.getD "undefined")))
    []

/-- JavaScript strict equality `===` on decoded parameter values.  Arrays
and objects compare by reference; the two sides here always come from
independent `parseParam` calls, hence are never the same reference. -/
def jsStrictEq : JsValue → JsValue → Bool
  | .null, .null => true
  | .bool a, .bool b => a == b
  | .num a, .num b => a == b
  | .str a, .str b => a == b
  | _, _ => false

/-- The four HTTP methods the mock module supports (`mockMap`,
`requestCatcher` and `unmockedMap` all carry exactly these four keys). -/
inductive Method where
  | delete : Method
  | get : Method
  | post : Method
  | put : Method
deriving DecidableEq

/-- Lower-case name of a method, as used for map indexing in the source. -/
def Method.toStr : Method → String
  | .delete => "delete"
  | .get => "get"
  | .post => "post"
  | .put => "put"

/-- Which of the four per-method maps a (lower-cased) method string selects;
`none` models an unsupported method, for which the source would fault on an
`undefined` map. -/
def Method.ofString (s : String) : Option Method :=
  if s = "delete" then some .delete
  else if s = "get" then some .get
  else if s = "post" then some .post
  else if s = "put" then some .put
  else none

/-- Handler context: the source object literal
`\x7b params, requestBody: opts.body, url \x7d`. -/
structure HandlerArg where
  params : Params
  requestBody : Option String
  url : String

/-- A response marker `[status, headers, body]` as returned by handlers. -/
structure MockedResponse where
  status : Int
  headers : List (String × String)
  body : Option String

/-- A registered mock handler: returns a response marker or declines
(`undefined`). -/
def Handler : Type := HandlerArg → Option MockedResponse

/-- The mock registry `http.mockMap`: per-method maps from URL key to
handler. -/
structure MockMap where
  delete : List (String × Handler)
  get : List (String × Handler)
  post : List (String × Handler)
  put : List (String × Handler)

/-- The registry with all four method maps empty. -/
def MockMap.empty : MockMap := ⟨[], [], [], []⟩

/-- Registry keys-and-handlers for one method. -/
def MockMap.forMethod (m : MockMap) : Method → List (String × Handler)
  | .delete => m.delete
  | .get => m.get
  | .post => m.post
  | .put => m.put

/-- Register a handler under one method's URL key. -/
def MockMap.insert (m : MockMap) (meth : Method) (url : String) (h : Handler) : MockMap :=
  match meth with
  | .delete => { m with delete := alInsert m.delete url h }
  | .get => { m with get := alInsert m.get url h }
  | .post => { m with post := alInsert m.post url h }
  | .put => { m with put := alInsert m.put url h }

/-- A traffic map (`http.requestCatcher` / `http.unmockedMap`): GET and
DELETE entries are URL-keyed strings, POST and PUT entries are URL-keyed
maps from the exact request-body string to a marker string. -/
structure TrafficMap where
  delete : List (String × String)
  get : List (String × String)
  post : List (String × List (String × String))
  put : List (String × List (String × String))
deriving DecidableEq

/-- The empty traffic map the module initialises. -/
def TrafficMap.empty : TrafficMap := ⟨[], [], [], []⟩

/-- Two-level write `outer[url] = outer[url] || \x7b\x7d; outer[url][bodyKey] = v`. -/
def nestedInsert (outer : List (String × List (String × String)))
    (url bodyKey v : String) : List (String × List (String × String)) :=
  alInsert outer url (alInsert ((alLookup outer url).getD []) bodyKey v)

/-- Record a POST/PUT entry (URL, then exact body string).  The GET and
DELETE cases are unreachable: both call sites guard on the method. -/
def TrafficMap.putNested (t : TrafficMap) (m : Method) (url bodyKey v : String) : TrafficMap :=
  match m with
  | .post => { t with post := nestedInsert t.post url bodyKey v }
  | .put => { t with put := nestedInsert t.put url bodyKey v }
  | .delete => t
  | .get => t

/-- Record a GET/DELETE entry (URL-keyed scalar).  The POST and PUT cases
are unreachable: both call sites guard on the method. -/
def TrafficMap.putFlat (t : TrafficMap) (m : Method) (url v : String) : TrafficMap :=
  match m with
  | .delete => { t with delete := alInsert t.delete url v }
  | .get => { t with get := alInsert t.get url v }
  | .post => t
  | .put => t

/-- Context of a completed request as seen by `http.record` (`this.url`,
`this.opts.method`, `this.opts.body`). -/
structure RecordCtx where
  url : String
  method : Option String
  body : Option String

/-- The process-wide mutable state the mock module installs on `http`.
The `onRecordResponse` observer of the source also receives the transport
response; the response payload is an external collaborator and is elided
here. -/
structure HttpState where
  recordQueryParams : Bool
  hasMocks : Bool
  mockMap : MockMap
  requestCatcher : TrafficMap
  unmockedMap : TrafficMap
  onUnmockedRequest : Option (String → String → Option String → Option MockedResponse)
  onRecordResponse : Option (RecordCtx → Bool)

/-- State after module initialisation: `recordQueryParams = false`, empty
traffic maps, and `clearMocks()` has been run once. -/
def initState : HttpState :=
  { recordQueryParams := false
    hasMocks := false
    mockMap := MockMap.empty
    requestCatcher := TrafficMap.empty
    unmockedMap := TrafficMap.empty
    onUnmockedRequest := none
    onRecordResponse := none }

/-- Source `http.clearMocks`: drop the has-mocks flag and reset the
registry; traffic maps are untouched. -/
def clearMocks (st : HttpState) : HttpState :=
  { st with hasMocks := false, mockMap := MockMap.empty }

/-- Source `http.mock(method, url, handler)` for a string method: set the
has-mocks flag, then register under `mockMap[method.toLowerCase()][url]`.
An unsupported method string would fault in the source after setting the
flag; the model leaves the registry unchanged in that case. -/
def mock (st : HttpState) (method url : String) (handler : Handler) : HttpState :=
  match Method.ofString (jsToLower method) with
  | some m => { st with hasMocks := true, mockMap := st.mockMap.insert m url handler }
  | none => { st with hasMocks := true }

/-- Source `http.mockResponse(status, body)`: a marker with a JSON content
type whose body is the string itself for string bodies and the
JSON-serialization otherwise. -/
def mockResponse (status : Int) (body : JsValue) : MockedResponse :=
  { status := status
    headers := [("Content-Type", "application/json; charset=utf-8")]
    body := some (match body with
      | .str s => s
      | v => jsonStringify v) }

/-- The closure `mockRequestMap` registers for a recorded GET entry:
always answer 200 with the stored marker. -/
def getMapHandler (requestMap : TrafficMap) (url : String) : Handler :=
  fun _ => some (mockResponse 200 (.str ((alLookup requestMap.get url).getD "")))

/-- The closure `mockRequestMap` registers for a recorded DELETE entry. -/
def deleteMapHandler (requestMap : TrafficMap) (url : String) : Handler :=
  fun _ => some (mockResponse 200 (.str ((alLookup requestMap.delete url).getD "")))

/-- The closure `mockRequestMap` registers for a recorded POST entry: look
the exact request-body string up in the stored inner map (an absent body
indexes as the string `"undefined"`), declining when it is absent. -/
def postMapHandler (requestMap : TrafficMap) (url : String) : Handler :=
  fun arg =>
    match alLookup ((alLookup requestMap.post url).getD [])
        (arg.requestBody.getD "undefined") with
    | none => none
    | some response => some (mockResponse 200 (.str response))

/-- The closure `mockRequestMap` registers for a recorded PUT entry. -/
def putMapHandler (requestMap : TrafficMap) (url : String) : Handler :=
  fun arg =>
    match alLookup ((alLookup requestMap.put url).getD [])
        (arg.requestBody.getD "undefined") with
    | none => none
    | some response => some (mockResponse 200 (.str response))

/-- Source `http.mockRequestMap(requestMap)`: bulk-register handlers for
the GET, POST, PUT and DELETE entries of a traffic-map-shaped object, in
that order. -/
def mockRequestMap (st : HttpState) (requestMap : TrafficMap) : HttpState :=
  let st1 := requestMap.get.foldl
    (fun s p => mock s "get" p.1 (getMapHandler requestMap p.1)) st
  let st2 := requestMap.post.foldl
    (fun s p => mock s "post" p.1 (postMapHandler requestMap p.1)) st1
  let st3 := requestMap.put.foldl
    (fun s p => mock s "put" p.1 (putMapHandler requestMap p.1)) st2
  requestMap.delete.foldl
    (fun s p => mock s "delete" p.1 (deleteMapHandler requestMap p.1)) st3

/-- Outcome of `http.promiseMockedResponse`: the promise resolution value,
with `parseError` modelling the synchronous `JSON.parse` throw. -/
inductive Resolved where
  | ok (value : Option JsValue) : Resolved
  | statusObj (status : Int) : Resolved
  | parseError : Resolved

/-- Source `http.promiseMockedResponse(response)`: a 200 marker resolves to
the JSON-decoded body unless the body is falsy or the literal `"OK"`, in
which case it resolves to `undefined`; any other status resolves to an
object carrying only the numeric status. -/
def promiseMockedResponse (r : MockedResponse) : Resolved :=
  if r.status = 200 then
    match r.body with
    | some b =>
      if b ≠ "" ∧ b ≠ "OK" then
        match jsonParse b with
        | some v => .ok (some v)
        | none => .parseError
      else .ok none
    | none => .ok none
  else .statusObj r.status

/-- Source `http.record(response)` (state part): unless the
`onRecordResponse` observer handles it, store an `'OK'` marker under the
URL (query string stripped unless `recordQueryParams`), broken out by the
exact body string for POST/PUT. -/
def record (st : HttpState) (ctx : RecordCtx) : HttpState :=
  let handled := match st.onRecordResponse with
    | some f => f ctx
    | none => false
  if handled then st
  else
    let url := if st.recordQueryParams then ctx.url else (jsSplit '?' ctx.url).headD ""
    match Method.ofString (jsToLower (ctx.method.getD "get")) with
    | some m =>
      if m = .post ∨ m = .put then
        { st with requestCatcher := st.requestCatcher.putNested m url (ctx.body.getD "undefined") "OK" }
      else
        { st with requestCatcher := st.requestCatcher.putFlat m url "OK" }
    | none => st

/-- Insert one entry into a key-sorted association list (keys compared as
strings, ascending). -/
def insertSorted {α : Type _} (x : String × α) : List (String × α) → List (String × α)
  | [] => [x]
  | y :: rest => if strLe x.1 y.1 then x :: y :: rest else y :: insertSorted x rest

/-- Key-sort an association list, modelling `Object.keys(m).sort()`
followed by re-insertion in sorted order. -/
def sortByKey {α : Type _} (m : List (String × α)) : List (String × α) :=
  m.foldr insertSorted []

/-- The key-sorted copy `dumpRequestMap` builds before serializing:
`delete` and `get` are sorted at the URL level, `post` additionally sorts
each inner body map, while `put` copies its inner body maps without
sorting them (the `put` block of the source mirrors the `get` block, not
the `post` block). -/
def dumpRequestMapValue (c : TrafficMap) : TrafficMap :=
  { delete := sortByKey c.delete
    get := sortByKey c.get
    post := (sortByKey c.post).map fun p => (p.1, sortByKey p.2)
    put := sortByKey c.put }

/-- Render a flat string-to-string map as `JSON.stringify(m, null, 4)`
would at nesting depth given by `ind` (the indentation of the opening
brace's line). -/
def renderStrMap (ind : String) (m : List (String × String)) : String :=
  if m.isEmpty then "\x7b\x7d"
  else
    "\x7b\n" ++
      String.intercalate ",\n"
        (m.map fun p => ind ++ "    " ++ quoteJson p.1 ++ ": " ++ quoteJson p.2) ++
    "\n" ++ ind ++ "\x7d"

/-- Render a two-level map (URL, then body string) as
`JSON.stringify(m, null, 4)` would. -/
def renderNestedMap (ind : String) (m : List (String × List (String × String))) : String :=
  if m.isEmpty then "\x7b\x7d"
  else
    "\x7b\n" ++
      String.intercalate ",\n"
        (m.map fun p =>
          ind ++ "    " ++ quoteJson p.1 ++ ": " ++ renderStrMap (ind ++ "    ") p.2) ++
    "\n" ++ ind ++ "\x7d"

/-- `JSON.stringify(trafficMap, null, 4)` for the four-method shape the
dump functions build. -/
def renderTrafficMap (t : TrafficMap) : String :=
  "\x7b\n" ++
    String.intercalate ",\n"
      [ "    " ++ quoteJson "delete" ++ ": " ++ renderStrMap "    " t.delete,
        "    " ++ quoteJson "get" ++ ": " ++ renderStrMap "    " t.get,
        "    " ++ quoteJson "post" ++ ": " ++ renderNestedMap "    " t.post,
        "    " ++ quoteJson "put" ++ ": " ++ renderNestedMap "    " t.put ] ++
  "\n\x7d"

/-- Source `http.dumpRequestMap`: serialize the key-sorted copy of the
recorded-traffic map with 4-space indentation. -/
def dumpRequestMap (st : HttpState) : String :=
  renderTrafficMap (dumpRequestMapValue st.requestCatcher)

/-- Source `http.dumpUnmockedRequestMap`: identical construction over
`unmockedMap` (including the unsorted copy of `put` inner maps). -/
def dumpUnmockedRequestMap (st : HttpState) : String :=
  renderTrafficMap (dumpRequestMapValue st.unmockedMap)

/-- Source `tryMocked` lines 360–372: the unmatched tail of a dispatch.
Only when the `onUnmockedRequest` observer is configured is the request
appended to `unmockedMap` (POST/PUT keyed by URL then exact body string,
other methods by URL with value `opts.body || ''`), after which the
observer runs and a returned marker resolves the dispatch. -/
def unmockedFallthrough (st : HttpState) (m : Method) (url : String)
    (body : Option String) : Option Resolved × HttpState :=
  match st.onUnmockedRequest with
  | none => (none, st)
  | some f =>
    let st' :=
      if m = .post ∨ m = .put then
        { st with unmockedMap := st.unmockedMap.putNested m url (body.getD "undefined") "" }
      else
        { st with unmockedMap := st.unmockedMap.putFlat m url (body.getD "") }
    match f m.toStr url body with
    | some r => (some (promiseMockedResponse r), st')
    | none => (none, st')

/-- Walk the path segments of a candidate pattern key pairwise against the
incoming URL's segments (source inner `for` loop): a literal segment must
match exactly, a colon-prefixed segment captures the incoming segment via
`parseParam`.  Captures made before a later mismatch stay in the parameter
map, exactly as the source mutates `params` in place. -/
def walkSegments : List String → List String → Params → Params × Bool
  | u :: us, mseg :: msegs, params =>
    if u ≠ mseg ∧ ¬ headIsColon mseg then (params, false)
    else if headIsColon mseg then
      walkSegments us msegs (alInsert params (strDrop1 mseg) (parseParam u))
    else walkSegments us msegs params
  | [], [], params => (params, true)
  | _, _, params => (params, false)

/-- One iteration of the source pattern-scan loop body for a single
registry key: skip keys without a colon, skip differing segment counts,
reject on any mock query-param not strictly equal to the incoming parsed
value, then walk the segments. -/
def matchKey (urlParts : List String) (params : Params) (mockUrl : String) :
    Params × Bool :=
  if ¬ strContains mockUrl ':' then (params, false)
  else if (jsSplit '/' ((jsSplit '?' mockUrl).headD "")).length ≠ urlParts.length then
    (params, false)
  else if (getQueryParams mockUrl).any
      (fun p =>
        match alLookup params p.1 with
        | some v => ! jsStrictEq p.2 v
        | none => true) then (params, false)
  else walkSegments urlParts (jsSplit '/' ((jsSplit '?' mockUrl).headD "")) params

/-- The source pattern-scan `for` loop over the registry keys of the
method, in enumeration order, threading the (mutated) parameter map and
stopping at the first structurally matching key. -/
def scanKeys (urlParts : List String) :
    List (String × Handler) → Params → Params × Option (String × Handler)
  | [], params => (params, none)
  | (k, h) :: rest, params =>
    match matchKey urlParts params k with
    | (params', true) => (params', some (k, h))
    | (params', false) => scanKeys urlParts rest params'

/-- Result of one interception attempt: the resolved response (`none` =
fall through to the real transport), the updated state, and — as model
instrumentation absent from the source — the list of handler invocations
(registry key and argument object) the dispatch performed. -/
structure DispatchResult where
  response : Option Resolved
  state : HttpState
  invocations : List (String × HandlerArg)

/-- Invoke a found handler (source lines 294–299 and 342–356 share this
shape): a returned marker resolves the dispatch, a decline falls through
to `unmockedFallthrough`; either way no further handler is tried. -/
def invokeHandler (st : HttpState) (m : Method) (url : String) (body : Option String)
    (key : String) (h : Handler) (arg : HandlerArg) : DispatchResult :=
  match h arg with
  | some r => ⟨some (promiseMockedResponse r), st, [(key, arg)]⟩
  | none =>
    let r := unmockedFallthrough st m url body
    ⟨r.1, r.2, [(key, arg)]⟩

/-- Exact lookup, then pattern scan, then unmatched tail (source lines
288–372, after the has-mocks fast path and method resolution). -/
def dispatchResolved (st : HttpState) (m : Method) (url urlNoParams : String)
    (body : Option String) (params : Params) : DispatchResult :=
  match alLookup (st.mockMap.forMethod m) url with
  | some handler => invokeHandler st m url body url handler ⟨params, body, url⟩
  | none =>
    match alLookup (st.mockMap.forMethod m) urlNoParams with
    | some handler => invokeHandler st m url body urlNoParams handler ⟨params, body, url⟩
    | none =>
      match scanKeys (jsSplit '/' urlNoParams) (st.mockMap.forMethod m) params with
      | (params', some (k, h)) => invokeHandler st m url body k h ⟨params', body, url⟩
      | (_, none) =>
        let r := unmockedFallthrough st m url body
        ⟨r.1, r.2, []⟩

/-- Source `http.tryMocked(url, opts)`: nothing happens without registered
mocks; otherwise resolve the method (an unsupported method faults in the
source and yields no interception here) and run exact lookup, pattern scan
and the unmatched tail. -/
def tryMocked (st : HttpState) (url : String) (opts_method opts_body : Option String) :
    DispatchResult :=
  if st.hasMocks = false then ⟨none, st, []⟩
  else
    match Method.ofString (jsToLower (opts_method.getD "get")) with
    | none => ⟨none, st, []⟩
    | some m =>
      dispatchResolved st m url ((jsSplit '?' url).headD "") opts_body (getQueryParams url)

/-- Whether a registry key has a colon-prefixed path segment (the
eligibility condition the specification describes; the source condition is
`mockUrl.includes(':')`). -/
def hasColonPrefixedSegment (key : String) : Bool :=
  (jsSplit '/' ((jsSplit '?' key).headD "")).any headIsColon

/-- Well-formedness of a traffic map as JavaScript objects produce it: no
duplicate keys at any level. -/
def TrafficMap.WF (t : TrafficMap) : Prop :=
  (t.delete.map Prod.fst).Nodup ∧ (t.get.map Prod.fst).Nodup ∧
  (t.post.map Prod.fst).Nodup ∧ (t.put.map Prod.fst).Nodup ∧
  (∀ p ∈ t.post, (p.2.map Prod.fst).Nodup) ∧
  (∀ p ∈ t.put, (p.2.map Prod.fst).Nodup)

/-! Concrete fixtures used by the closed theorems below. -/

/-- Handler answering 200 with the `"OK"` placeholder body. -/
def respondOkHandler : Handler := fun _ => some (mockResponse 200 (.str "OK"))

/-- Handler answering 404 with the body `"not found"`. -/
def respond404Handler : Handler := fun _ => some (mockResponse 404 (.str "not found"))

/-- Handler that always declines (`return undefined`). -/
def declineHandler : Handler := fun _ => none

/-- Handler answering 200 with the JSON body `"[5]"`. -/
def answer5Handler : Handler := fun _ => some (mockResponse 200 (.str "[5]"))

/-- Unmatched-request observer answering a 404 marker. -/
def notFoundObserver : String → String → Option String → Option MockedResponse :=
  fun _ _ _ => some (mockResponse 404 (.str "nf"))

/-- Registry with an exact handler under the full URL `/a?x=1`. -/
def exactFixtureState : HttpState := mock initState "get" "/a?x=1" respond404Handler

/-- Registry with an exact handler under the stripped URL `/b`. -/
def strippedFixtureState : HttpState := mock initState "get" "/b" respond404Handler

/-- Registry whose GET keys are, in enumeration order: a non-pattern key,
a declining pattern key, and a responding pattern key of the same shape. -/
def scanFixtureState : HttpState :=
  mock (mock (mock initState "get" "/noc" respond404Handler)
      "get" "/a/:id" declineHandler)
    "get" "/a/:zz" respond404Handler

/-- Registry whose only GET key contains a colon inside a segment (not
colon-prefixed) plus a query condition. -/
def colonInsideState : HttpState := mock initState "get" "/a/b:c?x=1" respond404Handler

/-- Registry with one GET handler under `/other` and no unmatched-request
observer. -/
def unmatchedNoObsState : HttpState := mock initState "get" "/other" respondOkHandler

/-- The same registry with the unmatched-request observer configured. -/
def unmatchedObsState : HttpState :=
  { unmatchedNoObsState with onUnmockedRequest := some notFoundObserver }

/-- Registry with a GET handler under `/a` and the unmatched-request
observer configured. -/
def clearFixtureState : HttpState :=
  { (mock initState "get" "/a" answer5Handler) with onUnmockedRequest := some notFoundObserver }

/-- Recorded PUT traffic for one URL whose bodies were inserted `"b"` then
`"a"`. -/
def putTrafficBA : TrafficMap := ⟨[], [], [], [("/u", [("b", "OK"), ("a", "OK")])]⟩

/-- The same PUT entries inserted `"a"` then `"b"`. -/
def putTrafficAB : TrafficMap := ⟨[], [], [], [("/u", [("a", "OK"), ("b", "OK")])]⟩

/-- The same two insertion orders as POST traffic instead. -/
def postTrafficBA : TrafficMap := ⟨[], [], [("/u", [("b", "OK"), ("a", "OK")])], []⟩

/-- The same POST entries inserted `"a"` then `"b"`. -/
def postTrafficAB : TrafficMap := ⟨[], [], [("/u", [("a", "OK"), ("b", "OK")])], []⟩

/-- State holding a given traffic map in both recorders. -/
def trafficState (t : TrafficMap) : HttpState :=
  { initState with requestCatcher := t, unmockedMap := t }

/-- State with the unmatched-request observer configured and default
recording settings, for the keying theorems. -/
def recordFixtureState : HttpState :=
  { initState with onUnmockedRequest := some notFoundObserver }

/-- A small well-formed recorded-traffic map. -/
def rmFixture : TrafficMap :=
  ⟨[("/d", "OK")], [("/g", "OK")], [("/p", [("bodyA", "OK")])], [("/q", [("bodyB", "OK")])]⟩

/-! Helper lemmas about the embedded primitives. -/

theorem invokeHandler_invocations (st : HttpState) (m : Method) (url : String)
    (body : Option String) (key : String) (h : Handler) (arg : HandlerArg) :
    (invokeHandler st m url body key h arg).invocations = [(key, arg)] := by
  unfold invokeHandler
  cases h arg <;> simp

theorem alLookup_mem {α : Type _} {m : List (String × α)} {k : String} {v : α}
    (h : alLookup m k = some v) : (k, v) ∈ m := by
  induction m with
  | nil => simp [alLookup] at h
  | cons p rest ih =>
    obtain ⟨a, b⟩ := p
    simp only [alLookup] at h
    by_cases ha : a = k
    · rw [if_pos ha] at h
      cases h
      simp [ha]
    · rw [if_neg ha] at h
      simp [ih h]

theorem mem_keys_of_alLookup {α : Type _} {m : List (String × α)} {k : String} {v : α}
    (h : alLookup m k = some v) : k ∈ m.map Prod.fst :=
  List.mem_map_of_mem Prod.fst (alLookup_mem h)

theorem alLookup_map_value {α β : Type _} (m : List (String × α)) (f : α → β) (k : String) :
    alLookup (m.map fun p => (p.1, f p.2)) k = (alLookup m k).map f := by
  induction m with
  | nil => simp [alLookup]
  | cons p rest ih =>
    simp only [List.map_cons, alLookup]
    by_cases h : p.1 = k <;> simp [h, ih]

theorem map_value_keys {α β : Type _} (m : List (String × α)) (f : α → β) :
    (m.map fun p => (p.1, f p.2)).map Prod.fst = m.map Prod.fst := by
  simp [List.map_map]

theorem alLookup_alInsert {α : Type _} (m : List (String × α)) (k k' : String) (v : α) :
    alLookup (alInsert m k v) k' = if k = k' then some v else alLookup m k' := by
  induction m with
  | nil => simp [alInsert, alLookup]
  | cons p rest ih =>
    obtain ⟨a, b⟩ := p
    simp only [alInsert]
    by_cases hak : a = k
    · subst hak
      simp only [if_pos rfl]
      by_cases h : a = k' <;> simp [alLookup, h]
    · rw [if_neg hak]
      by_cases h : a = k'
      · subst h
        rw [if_neg (fun hh => hak hh.symm)]
        simp [alLookup]
      · simp [alLookup, h, ih]

theorem alLookup_foldl_insert {α β : Type _} (f : String → β)
    (entries : List (String × α)) (acc : List (String × β)) (k : String) :
    alLookup (entries.foldl (fun m p => alInsert m p.1 (f p.1)) acc) k =
      if k ∈ entries.map Prod.fst then some (f k) else alLookup acc k := by
  induction entries generalizing acc with
  | nil => simp
  | cons p rest ih =>
    simp only [List.foldl_cons, ih, List.map_cons, List.mem_cons]
    by_cases hr : k ∈ rest.map Prod.fst
    · simp [hr]
    · by_cases hp : p.1 = k
      · simp [hp, hr, alLookup_alInsert]
      · simp [hr, Ne.symm hp, alLookup_alInsert, hp]

theorem scanKeys_append (urlParts : List String) (l₁ l₂ : List (String × Handler))
    (params : Params) :
    scanKeys urlParts (l₁ ++ l₂) params =
      match scanKeys urlParts l₁ params with
      | (p, some x) => (p, some x)
      | (p, none) => scanKeys urlParts l₂ p := by
  induction l₁ generalizing params with
  | nil => simp [scanKeys]
  | cons p rest ih =>
    obtain ⟨k, h⟩ := p
    simp only [List.cons_append, scanKeys]
    cases hmk : matchKey urlParts params k with
    | mk p' b =>
      cases b with
      | true => simp
      | false => simp [ih]

theorem splitOnChar_ne_nil (sep : Char) (cs : List Char) : splitOnChar sep cs ≠ [] := by
  cases cs with
  | nil => simp [splitOnChar]
  | cons c rest =>
    simp only [splitOnChar]
    cases h : splitOnChar sep rest with
    | nil => simp
    | cons g gs =>
      by_cases hc : c = sep <;> simp [hc]

theorem splitOnChar_head_no_sep (sep : Char) (cs : List Char) :
    sep ∉ (splitOnChar sep cs).headD [] := by
  induction cs with
  | nil => simp [splitOnChar]
  | cons c rest ih =>
    simp only [splitOnChar]
    cases h : splitOnChar sep rest with
    | nil => simp
    | cons g gs =>
      by_cases hc : c = sep
      · simp [hc]
      · rw [h] at ih
        simp only [List.headD_cons] at ih
        simp [hc, List.headD_cons, ih]
        exact fun heq => absurd heq.symm hc

theorem stripQuery_no_question_mark (url : String) :
    '?' ∉ ((jsSplit '?' url).headD "").data := by
  have h := splitOnChar_head_no_sep '?' url.data
  have hne := splitOnChar_ne_nil '?' url.data
  unfold jsSplit
  cases hsp : splitOnChar '?' url.data with
  | nil => exact absurd hsp hne
  | cons g gs =>
    rw [hsp] at h
    simpa using h

theorem alLookup_eq_none_iff {α : Type _} (m : List (String × α)) (k : String) :
    alLookup m k = none ↔ k ∉ m.map Prod.fst := by
  induction m with
  | nil => simp [alLookup]
  | cons p rest ih =>
    obtain ⟨a, b⟩ := p
    simp only [alLookup, List.map_cons, List.mem_cons]
    by_cases h : a = k
    · subst h
      simp
    · rw [if_neg h, ih]
      constructor
      · rintro hn (he | hm)
        · exact h he.symm
        · exact hn hm
      · intro hn hm
        exact hn (Or.inr hm)

theorem matchKey_eq_true {urlParts : List String} {params p : Params} {k : String}
    (h : matchKey urlParts params k = (p, true)) :
    strContains k ':' = true ∧
      (jsSplit '/' ((jsSplit '?' k).headD "")).length = urlParts.length := by
  unfold matchKey at h
  by_cases hc : strContains k ':'
  · refine ⟨hc, ?_⟩
    rw [if_neg (not_not_intro hc)] at h
    by_cases hl : (jsSplit '/' ((jsSplit '?' k).headD "")).length = urlParts.length
    · exact hl
    · rw [if_pos hl] at h
      simp at h
  · rw [if_pos hc] at h
    simp at h

theorem insertSorted_perm {α : Type _} (x : String × α) (l : List (String × α)) :
    (insertSorted x l).Perm (x :: l) := by
  induction l with
  | nil => simp [insertSorted]
  | cons y rest ih =>
    simp only [insertSorted]
    by_cases h : strLe x.1 y.1
    · simp [h]
    · simp only [h, if_false, ite_false]
      exact ((ih.cons y).trans (List.Perm.swap x y rest))

theorem sortByKey_perm {α : Type _} (m : List (String × α)) : (sortByKey m).Perm m := by
  induction m with
  | nil => simp [sortByKey]
  | cons p rest ih =>
    simp only [sortByKey, List.foldr_cons]
    exact (insertSorted_perm p _).trans (ih.cons p)

theorem alLookup_of_perm {α : Type _} {m₁ m₂ : List (String × α)} (h : m₁.Perm m₂)
    (hnd : (m₁.map Prod.fst).Nodup) (k : String) :
    alLookup m₁ k = alLookup m₂ k := by
  induction h with
  | nil => rfl
  | cons x hp ih =>
    simp only [List.map_cons, List.nodup_cons] at hnd
    simp only [alLookup]
    by_cases hk : x.1 = k
    · simp [hk]
    · simp [hk, ih hnd.2]
  | swap x y l =>
    simp only [List.map_cons, List.nodup_cons, List.mem_cons] at hnd
    have hyx : y.1 ≠ x.1 := fun he => hnd.1 (Or.inl he)
    simp only [alLookup]
    by_cases h1 : y.1 = k
    · by_cases h2 : x.1 = k
      · exact absurd (h1.trans h2.symm) hyx
      · simp [h1, h2]
    · simp [h1]
  | trans h₁ h₂ ih₁ ih₂ =>
    exact (ih₁ hnd).trans (ih₂ ((h₁.map Prod.fst).nodup hnd))

theorem alLookup_sortByKey {α : Type _} (m : List (String × α))
    (hnd : (m.map Prod.fst).Nodup) (k : String) :
    alLookup (sortByKey m) k = alLookup m k :=
  alLookup_of_perm (sortByKey_perm m)
    ((((sortByKey_perm m).map Prod.fst).symm).nodup hnd) k

theorem mem_keys_sortByKey {α : Type _} (m : List (String × α)) (k : String) :
    k ∈ (sortByKey m).map Prod.fst ↔ k ∈ m.map Prod.fst :=
  ((sortByKey_perm m).map Prod.fst).mem_iff

/-! Reduction lemmas for `mock` at the four literal method strings. -/

theorem mock_get (st : HttpState) (u : String) (h : Handler) :
    mock st "get" u h =
      { st with hasMocks := true, mockMap := st.mockMap.insert .get u h } := rfl

theorem mock_post (st : HttpState) (u : String) (h : Handler) :
    mock st "post" u h =
      { st with hasMocks := true, mockMap := st.mockMap.insert .post u h } := rfl

theorem mock_put (st : HttpState) (u : String) (h : Handler) :
    mock st "put" u h =
      { st with hasMocks := true, mockMap := st.mockMap.insert .put u h } := rfl

theorem mock_delete (st : HttpState) (u : String) (h : Handler) :
    mock st "delete" u h =
      { st with hasMocks := true, mockMap := st.mockMap.insert .delete u h } := rfl

theorem foldl_mock_get_mockMap {α : Type _} (entries : List (String × α))
    (hf : String → Handler) (st : HttpState) :
    (entries.foldl (fun s p => mock s "get" p.1 (hf p.1)) st).mockMap =
      { st.mockMap with
        get := entries.foldl (fun m p => alInsert m p.1 (hf p.1)) st.mockMap.get } := by
  induction entries generalizing st with
  | nil => rfl
  | cons p rest ih =>
    simp only [List.foldl_cons]
    rw [ih]
    simp [mock_get, MockMap.insert]

theorem foldl_mock_post_mockMap {α : Type _} (entries : List (String × α))
    (hf : String → Handler) (st : HttpState) :
    (entries.foldl (fun s p => mock s "post" p.1 (hf p.1)) st).mockMap =
      { st.mockMap with
        post := entries.foldl (fun m p => alInsert m p.1 (hf p.1)) st.mockMap.post } := by
  induction entries generalizing st with
  | nil => rfl
  | cons p rest ih =>
    simp only [List.foldl_cons]
    rw [ih]
    simp [mock_post, MockMap.insert]

theorem foldl_mock_put_mockMap {α : Type _} (entries : List (String × α))
    (hf : String → Handler) (st : HttpState) :
    (entries.foldl (fun s p => mock s "put" p.1 (hf p.1)) st).mockMap =
      { st.mockMap with
        put := entries.foldl (fun m p => alInsert m p.1 (hf p.1)) st.mockMap.put } := by
  induction entries generalizing st with
  | nil => rfl
  | cons p rest ih =>
    simp only [List.foldl_cons]
    rw [ih]
    simp [mock_put, MockMap.insert]

theorem foldl_mock_delete_mockMap {α : Type _} (entries : List (String × α))
    (hf : String → Handler) (st : HttpState) :
    (entries.foldl (fun s p => mock s "delete" p.1 (hf p.1)) st).mockMap =
      { st.mockMap with
        delete := entries.foldl (fun m p => alInsert m p.1 (hf p.1)) st.mockMap.delete } := by
  induction entries generalizing st with
  | nil => rfl
  | cons p rest ih =>
    simp only [List.foldl_cons]
    rw [ih]
    simp [mock_delete, MockMap.insert]

theorem mockRequestMap_mockMap (st : HttpState) (rm : TrafficMap) :
    (mockRequestMap st rm).mockMap =
      { delete := rm.delete.foldl
          (fun m p => alInsert m p.1 (deleteMapHandler rm p.1)) st.mockMap.delete
        get := rm.get.foldl
          (fun m p => alInsert m p.1 (getMapHandler rm p.1)) st.mockMap.get
        post := rm.post.foldl
          (fun m p => alInsert m p.1 (postMapHandler rm p.1)) st.mockMap.post
        put := rm.put.foldl
          (fun m p => alInsert m p.1 (putMapHandler rm p.1)) st.mockMap.put } := by
  unfold mockRequestMap
  rw [foldl_mock_delete_mockMap, foldl_mock_put_mockMap, foldl_mock_post_mockMap,
    foldl_mock_get_mockMap]

theorem tryMocked_eq_dispatch (st : HttpState) (url : String) (om ob : Option String)
    (m : Method) (hm : st.hasMocks = true)
    (hmeth : Method.ofString (jsToLower (om.getD "get")) = some m) :
    tryMocked st url om ob =
      dispatchResolved st m url ((jsSplit '?' url).headD "") ob (getQueryParams url) := by
  unfold tryMocked
  rw [hm, hmeth]
  simp

/-! Theorems for the specification claims. -/

/-- C4: resolution of a response marker: with status 200 the body is
JSON-decoded, except that the literal body `"OK"` (or a falsy body)
resolves to `undefined`; with any status other than 200 resolution yields
an object carrying only the numeric status and no decoding of the body is
attempted — in particular the marker `[404, ..., "not found"]` resolves to
`status === 404` without JSON-decoding `"not found"`. -/
theorem response_marker_resolution (hd : List (String × String)) (s : Int) (b : String) :
    (s ≠ 200 → promiseMockedResponse ⟨s, hd, some b⟩ = .statusObj s) ∧
    (promiseMockedResponse ⟨200, hd, some "OK"⟩ = .ok none) ∧
    (∀ v, b ≠ "" → b ≠ "OK" → jsonParse b = some v →
      promiseMockedResponse ⟨200, hd, some b⟩ = .ok (some v)) ∧
    promiseMockedResponse ⟨404, hd, some "not found"⟩ = .statusObj 404 := by
  refine ⟨?_, rfl, ?_, rfl⟩
  · intro hs
    simp [promiseMockedResponse, hs]
  · intro v h1 h2 h3
    simp [promiseMockedResponse, h1, h2, h3]

/-- Witness for C4 at concrete markers. -/
theorem response_marker_resolution_witness :
    promiseMockedResponse ⟨404, [], some "not found"⟩ = .statusObj 404 ∧
    promiseMockedResponse ⟨200, [], some "OK"⟩ = .ok none ∧
    promiseMockedResponse ⟨200, [], some "[1]"⟩ = .ok (some (.arr [.num 1])) :=
  ⟨(response_marker_resolution [] 404 "not found").1 (by decide),
    (response_marker_resolution [] 200 "OK").2.1,
    (response_marker_resolution [] 200 "[1]").2.2.1 (.arr [.num 1])
      (by decide) (by decide) rfl⟩

/-- C7 counterexample: with the unmatched-request observer configured, a
URL that matched before `clearMocks()` afterwards produces no handler
invocation *and no unmatched-handling at all*: the observer is still
configured but the dispatch returns nothing, records nothing into the
unmocked map and ignores the observer's marker — whereas the
unmatched-handling tail, had it been entered, would have recorded the
request and resolved with the observer's 404 marker. -/
theorem clearMocks_skips_unmatched_handling_counterexample :
    (tryMocked clearFixtureState "/a" (some "get") none).response
        = some (.ok (some (.arr [.num 5]))) ∧
    tryMocked (clearMocks clearFixtureState) "/a" (some "get") none
        = ⟨none, clearMocks clearFixtureState, []⟩ ∧
    (clearMocks clearFixtureState).onUnmockedRequest = some notFoundObserver ∧
    (tryMocked (clearMocks clearFixtureState) "/a" (some "get") none).state.unmockedMap
        = TrafficMap.empty ∧
    (unmockedFallthrough (clearMocks clearFixtureState) .get "/a" none).2.unmockedMap.get
        = [("/a", "")] ∧
    (unmockedFallthrough (clearMocks clearFixtureState) .get "/a" none).1
        = some (.statusObj 404) :=
  ⟨rfl, rfl, rfl, rfl, rfl, rfl⟩

/-- C7 (amended): `clearMocks()` leaves both traffic maps unchanged, and
after it every dispatch invokes no handler and bypasses interception
entirely — because the has-mocks flag is cleared, the dispatch returns
immediately (skipping even the unmatched-handling tail) and proceeds to
the real transport. -/
theorem clearMocks_bypasses_interception (st : HttpState) (url : String)
    (om ob : Option String) :
    (clearMocks st).requestCatcher = st.requestCatcher ∧
    (clearMocks st).unmockedMap = st.unmockedMap ∧
    tryMocked (clearMocks st) url om ob = ⟨none, clearMocks st, []⟩ :=
  ⟨rfl, rfl, rfl⟩

/-- C9: captured pattern segments and query-parameter values are
percent-decoded and then opportunistically JSON-parsed, so numeric and
array literals become typed values while non-JSON strings (including
ISO-8601 dates) remain strings; in particular dispatching `/api/pets/823`
against the registered pattern `/api/pets/:id` invokes the handler with
`params.id` equal to the number 823, not the string `"823"`. -/
theorem pattern_params_json_parsed :
    (tryMocked (mock initState "get" "/api/pets/:id" respondOkHandler) "/api/pets/823"
        (some "get") none).invocations =
      [("/api/pets/:id", ⟨[("id", .num 823)], none, "/api/pets/823"⟩)] ∧
    parseParam "823" = .num 823 ∧
    parseParam "dog" = .str "dog" ∧
    parseParam "%5B1%2C2%5D" = .arr [.num 1, .num 2] ∧
    parseParam "2020-01-02T00%3A00%3A00" = .str "2020-01-02T00:00:00" ∧
    getQueryParams "/a?x=5&y=dog" = [("x", .num 5), ("y", .str "dog")] :=
  ⟨rfl, rfl, rfl, rfl, rfl, rfl⟩

/-- C3 counterexample: the registry key `/a/b:c?x=1` has no colon-prefixed
path segment, yet the pattern scan matches it for the dispatch of
`/a/b:c?x=1&y=2` (both exact lookups miss) and invokes its handler — the
source eligibility test is `key.includes(':')`, a colon anywhere. -/
theorem pattern_eligibility_colon_counterexample :
    hasColonPrefixedSegment "/a/b:c?x=1" = false ∧
    alLookup (colonInsideState.mockMap.forMethod .get) "/a/b:c?x=1&y=2" = none ∧
    alLookup (colonInsideState.mockMap.forMethod .get) "/a/b:c" = none ∧
    (tryMocked colonInsideState "/a/b:c?x=1&y=2" (some "get") none).invocations =
      [("/a/b:c?x=1", ⟨[("x", .num 1), ("y", .num 2)], none, "/a/b:c?x=1&y=2"⟩)] ∧
    (tryMocked colonInsideState "/a/b:c?x=1&y=2" (some "get") none).response =
      some (.statusObj 404) :=
  ⟨rfl, rfl, rfl, rfl, rfl⟩

/-- C3 (amended): a registry key matched by the pattern scan always
contains a colon character — anywhere in the key, a colon-prefixed path
segment is not required — and always has exactly the same number of
slash-delimited path segments (ignoring the key's own query string) as the
incoming URL path; a key with a different segment count never matches,
regardless of literal prefix similarity. -/
theorem pattern_match_requires_colon_and_equal_segments
    (urlParts : List String) (keys : List (String × Handler)) (params p : Params)
    (k : String) (h : Handler)
    (hscan : scanKeys urlParts keys params = (p, some (k, h))) :
    strContains k ':' = true ∧
    (jsSplit '/' ((jsSplit '?' k).headD "")).length = urlParts.length := by
  induction keys generalizing params with
  | nil => simp [scanKeys] at hscan
  | cons q rest ih =>
    obtain ⟨k', h'⟩ := q
    cases hmk : matchKey urlParts params k' with
    | mk p' b =>
      cases b with
      | true =>
        simp only [scanKeys, hmk] at hscan
        simp only [Prod.mk.injEq, Option.some.injEq] at hscan
        obtain ⟨hp, hk, hh⟩ := hscan
        exact hk ▸ matchKey_eq_true hmk
      | false =>
        simp only [scanKeys, hmk] at hscan
        exact ih p' hscan

/-- Witness for the amended C3 at a concrete scan. -/
theorem pattern_match_requires_colon_and_equal_segments_witness :
    strContains "/a/:id" ':' = true ∧
    (jsSplit '/' ((jsSplit '?' "/a/:id").headD "")).length = (jsSplit '/' "/a/7").length :=
  pattern_match_requires_colon_and_equal_segments (jsSplit '/' "/a/7")
    [("/a/:id", declineHandler)] [] [("id", .num 7)] "/a/:id" declineHandler rfl

/-- C2: when the dispatched `(method, url)` pair is registered exactly (and
at least one mock is registered), the registered handler is invoked exactly
once — with `params` the parsed query parameters of the URL, the request
body, and the URL — and the pattern scan is never entered; the exact lookup
tries the full URL first and the query-stripped URL only when the full key
is absent. -/
theorem exact_match_bypasses_pattern_scan (st : HttpState) (url : String)
    (om ob : Option String) (m : Method) (h : Handler)
    (hm : st.hasMocks = true)
    (hmeth : Method.ofString (jsToLower (om.getD "get")) = some m) :
    (alLookup (st.mockMap.forMethod m) url = some h →
      tryMocked st url om ob =
        invokeHandler st m url ob url h ⟨getQueryParams url, ob, url⟩ ∧
      (tryMocked st url om ob).invocations = [(url, ⟨getQueryParams url, ob, url⟩)]) ∧
    (alLookup (st.mockMap.forMethod m) url = none →
      alLookup (st.mockMap.forMethod m) ((jsSplit '?' url).headD "") = some h →
      tryMocked st url om ob =
        invokeHandler st m url ob ((jsSplit '?' url).headD "") h
          ⟨getQueryParams url, ob, url⟩ ∧
      (tryMocked st url om ob).invocations =
        [((jsSplit '?' url).headD "", ⟨getQueryParams url, ob, url⟩)]) := by
  constructor
  · intro hx
    have he : tryMocked st url om ob =
        invokeHandler st m url ob url h ⟨getQueryParams url, ob, url⟩ := by
      rw [tryMocked_eq_dispatch st url om ob m hm hmeth]
      simp only [dispatchResolved, hx]
    exact ⟨he, by rw [he, invokeHandler_invocations]⟩
  · intro hx1 hx2
    have he : tryMocked st url om ob =
        invokeHandler st m url ob ((jsSplit '?' url).headD "") h
          ⟨getQueryParams url, ob, url⟩ := by
      rw [tryMocked_eq_dispatch st url om ob m hm hmeth]
      simp only [dispatchResolved, hx1, hx2]
    exact ⟨he, by rw [he, invokeHandler_invocations]⟩

/-- Witness for C2: a handler registered under the full URL (including its
query string) and one registered under a stripped URL, each dispatched
concretely. -/
theorem exact_match_bypasses_pattern_scan_witness :
    (tryMocked exactFixtureState "/a?x=1" (some "get") none).invocations =
      [("/a?x=1", ⟨[("x", .num 1)], none, "/a?x=1"⟩)] ∧
    (tryMocked exactFixtureState "/a?x=1" (some "get") none).response =
      some (.statusObj 404) ∧
    (tryMocked strippedFixtureState "/b?x=1" (some "get") none).invocations =
      [("/b", ⟨[("x", .num 1)], none, "/b?x=1"⟩)] := by
  have h1 := (exact_match_bypasses_pattern_scan exactFixtureState "/a?x=1" (some "get") none
      .get respond404Handler rfl rfl).1 rfl
  have h2 := (exact_match_bypasses_pattern_scan strippedFixtureState "/b?x=1" (some "get") none
      .get respond404Handler rfl rfl).2 rfl rfl
  refine ⟨?_, ?_, ?_⟩
  · rw [h1.2]
    rfl
  · rw [h1.1]
    rfl
  · rw [h2.2]
    rfl

/-- C1: when the exact lookup found no registered key, the pattern scan
walks the method's registry keys in enumeration order and invokes the
handler of the first structurally matching key only; if that handler
declines, the dispatch proceeds directly to unmatched-handling — no
later pattern key is ever tried, whatever handlers it may hold. -/
theorem pattern_scan_single_candidate (st : HttpState) (url : String)
    (om ob : Option String) (m : Method) (pre post : List (String × Handler))
    (k : String) (hnd : Handler) (p₁ p₂ : Params)
    (hm : st.hasMocks = true)
    (hmeth : Method.ofString (jsToLower (om.getD "get")) = some m)
    (hx1 : alLookup (st.mockMap.forMethod m) url = none)
    (hx2 : alLookup (st.mockMap.forMethod m) ((jsSplit '?' url).headD "") = none)
    (hkeys : st.mockMap.forMethod m = pre ++ (k, hnd) :: post)
    (hpre : scanKeys (jsSplit '/' ((jsSplit '?' url).headD "")) pre (getQueryParams url)
      = (p₁, none))
    (hmatch : matchKey (jsSplit '/' ((jsSplit '?' url).headD "")) p₁ k = (p₂, true))
    (hdecl : hnd ⟨p₂, ob, url⟩ = none) :
    tryMocked st url om ob =
      ⟨(unmockedFallthrough st m url ob).1, (unmockedFallthrough st m url ob).2,
        [(k, ⟨p₂, ob, url⟩)]⟩ := by
  rw [tryMocked_eq_dispatch st url om ob m hm hmeth]
  simp only [dispatchResolved, hx1, hx2]
  rw [hkeys, scanKeys_append, hpre]
  simp only [scanKeys, hmatch]
  simp only [invokeHandler, hdecl]

/-- Witness for C1: three registered GET keys; the second is the first
structural match and declines, the third is never consulted and the
dispatch ends unhandled with nothing recorded. -/
theorem pattern_scan_single_candidate_witness :
    tryMocked scanFixtureState "/a/7" (some "get") none =
      ⟨none, scanFixtureState, [("/a/:id", ⟨[("id", .num 7)], none, "/a/7"⟩)]⟩ :=
  pattern_scan_single_candidate scanFixtureState "/a/7" (some "get") none .get
    [("/noc", respond404Handler)] [("/a/:zz", respond404Handler)]
    "/a/:id" declineHandler [] [("id", .num 7)]
    rfl rfl rfl rfl rfl rfl rfl rfl

/-- C5 counterexample: a dispatch for which neither the exact lookup nor
the pattern scan produced a response, issued while the unmatched-request
observer is *not* configured, records nothing into the Unmocked Traffic
Map — recording is guarded by the observer's presence, it does not happen
unconditionally. -/
theorem unmocked_recording_requires_observer_counterexample :
    unmatchedNoObsState.onUnmockedRequest = none ∧
    (tryMocked unmatchedNoObsState "/u" (some "get") none).response = none ∧
    (tryMocked unmatchedNoObsState "/u" (some "get") none).invocations = [] ∧
    (tryMocked unmatchedNoObsState "/u" (some "get") none).state.unmockedMap
      = TrafficMap.empty :=
  ⟨rfl, rfl, rfl, rfl⟩

/-- C5 (amended): when neither the exact lookup nor the pattern scan
produced a response, the unmatched tail runs: *only if* the
unmatched-request observer is configured, the request is appended to the
Unmocked Traffic Map (POST/PUT keyed by URL then the exact body string,
other methods keyed by URL), the observer is invoked with the method, URL
and body, and a marker it returns resolves the dispatch; with no observer
configured, nothing is recorded and the dispatch falls through
unchanged. -/
theorem unmatched_tail_records_only_with_observer (st : HttpState) (url : String)
    (om ob : Option String) (m : Method)
    (hm : st.hasMocks = true)
    (hmeth : Method.ofString (jsToLower (om.getD "get")) = some m)
    (hx1 : alLookup (st.mockMap.forMethod m) url = none)
    (hx2 : alLookup (st.mockMap.forMethod m) ((jsSplit '?' url).headD "") = none)
    (hscan : (scanKeys (jsSplit '/' ((jsSplit '?' url).headD ""))
      (st.mockMap.forMethod m) (getQueryParams url)).2 = none) :
    (st.onUnmockedRequest = none → tryMocked st url om ob = ⟨none, st, []⟩) ∧
    (∀ f, st.onUnmockedRequest = some f →
      (tryMocked st url om ob).state.unmockedMap =
        (if m = .post ∨ m = .put then
          st.unmockedMap.putNested m url (ob.getD "undefined") ""
        else st.unmockedMap.putFlat m url (ob.getD "")) ∧
      (tryMocked st url om ob).response = (f m.toStr url ob).map promiseMockedResponse ∧
      (tryMocked st url om ob).invocations = []) := by
  have hd : tryMocked st url om ob =
      ⟨(unmockedFallthrough st m url ob).1, (unmockedFallthrough st m url ob).2, []⟩ := by
    rw [tryMocked_eq_dispatch st url om ob m hm hmeth]
    simp only [dispatchResolved, hx1, hx2]
    cases hp : scanKeys (jsSplit '/' ((jsSplit '?' url).headD ""))
        (st.mockMap.forMethod m) (getQueryParams url) with
    | mk ps r =>
      rw [hp] at hscan
      simp only at hscan
      subst hscan
      simp only
  constructor
  · intro hobs
    rw [hd]
    unfold unmockedFallthrough
    rw [hobs]
  · intro f hobs
    rw [hd]
    unfold unmockedFallthrough
    rw [hobs]
    cases hf : f m.toStr url ob with
    | none =>
      refine ⟨?_, ?_, ?_⟩ <;> simp only [hf] <;> first | rfl | (split <;> rfl)
    | some r =>
      refine ⟨?_, ?_, ?_⟩ <;> simp only [hf] <;> first | rfl | (split <;> rfl)

/-- Witness for the amended C5: the same unmatched dispatch with and
without the observer configured; with it, the URL is recorded under the
GET map and the observer's 404 marker resolves the dispatch. -/
theorem unmatched_tail_records_only_with_observer_witness :
    tryMocked unmatchedNoObsState "/u" (some "get") none = ⟨none, unmatchedNoObsState, []⟩ ∧
    (tryMocked unmatchedObsState "/u" (some "get") none).state.unmockedMap.get
      = [("/u", "")] ∧
    (tryMocked unmatchedObsState "/u" (some "get") none).response
      = some (.statusObj 404) := by
  have h1 := (unmatched_tail_records_only_with_observer unmatchedNoObsState "/u"
      (some "get") none .get rfl rfl rfl rfl rfl).1 rfl
  have h2 := (unmatched_tail_records_only_with_observer unmatchedObsState "/u"
      (some "get") none .get rfl rfl rfl rfl rfl).2 notFoundObserver rfl
  refine ⟨h1, ?_, ?_⟩
  · rw [h2.1]
    rfl
  · rw [h2.2.1]
    rfl

/-- C6 (code behaviour at the failing input): two traffic states holding
the same PUT entries inserted in different orders dump to different
strings — the dump functions copy each PUT inner body map without sorting
it, so the body keys appear in insertion order rather than ascending
(the parallel POST states, whose inner maps are sorted, dump
identically). -/
theorem dump_put_bodies_unsorted :
    ((putTrafficBA.put.headD ("", [])).2).Perm ((putTrafficAB.put.headD ("", [])).2) ∧
    dumpRequestMap (trafficState putTrafficBA) ≠ dumpRequestMap (trafficState putTrafficAB) ∧
    dumpUnmockedRequestMap (trafficState putTrafficBA)
      ≠ dumpUnmockedRequestMap (trafficState putTrafficAB) ∧
    (dumpRequestMapValue putTrafficBA).put = [("/u", [("b", "OK"), ("a", "OK")])] ∧
    dumpRequestMap (trafficState postTrafficBA)
      = dumpRequestMap (trafficState postTrafficAB) :=
  ⟨by decide, by decide, by decide, by decide, by decide⟩

/-- C10: with the record-query-params flag left at its default `false` and
default recording in effect, `record` keys the Recorded Traffic Map by the
URL with its query string stripped — a key that never contains `'?'` —
while the unmatched tail keys the Unmocked Traffic Map by the full request
URL; for a URL carrying a query string the two keys therefore differ. -/
theorem recorded_vs_unmocked_url_keying (st : HttpState) (ctx : RecordCtx) (m : Method)
    (hq : st.recordQueryParams = false)
    (hobs : st.onRecordResponse = none)
    (hmeth : Method.ofString (jsToLower (ctx.method.getD "get")) = some m) :
    (record st ctx).requestCatcher =
      (if m = .post ∨ m = .put then
        st.requestCatcher.putNested m ((jsSplit '?' ctx.url).headD "")
          (ctx.body.getD "undefined") "OK"
      else st.requestCatcher.putFlat m ((jsSplit '?' ctx.url).headD "") "OK") ∧
    '?' ∉ ((jsSplit '?' ctx.url).headD "").data ∧
    (∀ f, st.onUnmockedRequest = some f →
      (unmockedFallthrough st m ctx.url ctx.body).2.unmockedMap =
        (if m = .post ∨ m = .put then
          st.unmockedMap.putNested m ctx.url (ctx.body.getD "undefined") ""
        else st.unmockedMap.putFlat m ctx.url (ctx.body.getD ""))) ∧
    ('?' ∈ ctx.url.data → ((jsSplit '?' ctx.url).headD "") ≠ ctx.url) := by
  refine ⟨?_, stripQuery_no_question_mark ctx.url, ?_, ?_⟩
  · unfold record
    rw [hobs]
    simp only [hq, hmeth]
    rw [if_neg Bool.false_ne_true]
    split <;> rfl
  · intro f hf
    unfold unmockedFallthrough
    rw [hf]
    cases hr : f m.toStr ctx.url ctx.body <;> simp only [hr] <;> split <;> rfl
  · intro hqm heq
    have hno := stripQuery_no_question_mark ctx.url
    rw [heq] at hno
    exact hno hqm

/-- Witness for C10: recording `/a?x=1` by GET stores the key `/a`, while
the unmatched tail stores the key `/a?x=1`; the keys differ. -/
theorem recorded_vs_unmocked_url_keying_witness :
    (record recordFixtureState ⟨"/a?x=1", some "get", none⟩).requestCatcher.get
      = [("/a", "OK")] ∧
    (unmockedFallthrough recordFixtureState .get "/a?x=1" none).2.unmockedMap.get
      = [("/a?x=1", "")] ∧
    ("/a" : String) ≠ "/a?x=1" := by
  have t := recorded_vs_unmocked_url_keying recordFixtureState
    ⟨"/a?x=1", some "get", none⟩ .get rfl rfl rfl
  refine ⟨?_, ?_, ?_⟩
  · rw [t.1]
    rfl
  · have h3 := t.2.2.1 notFoundObserver rfl
    rw [h3]
    rfl
  · exact t.2.2.2 (by decide)

theorem getD_map_some {α β : Type _} (x : α) (f : α → β) (d : β) :
    ((some x).map f).getD d = f x := rfl

theorem getD_some {α : Type _} (x : α) (d : α) : (some x).getD d = x := rfl

/-- C8: round-trip — registering the (key-sorted) parsed dump of a
well-formed recorded-traffic map on a fresh state produces a registry
whose handlers answer exactly the method/URL/body combinations present in
the recorded map with a status-200 marker carrying the stored value
(resolving to `undefined` for the `"OK"` placeholder), whose POST/PUT
handlers decline for body strings not present in the map, and which has no
handler for any URL absent from the map. -/
theorem dump_mockRequestMap_round_trip (rm : TrafficMap) (hwf : rm.WF) :
    (∀ url v, alLookup rm.get url = some v →
      ∃ h, alLookup (mockRequestMap initState (dumpRequestMapValue rm)).mockMap.get url
          = some h ∧ ∀ arg, h arg = some (mockResponse 200 (.str v))) ∧
    (∀ url, alLookup rm.get url = none →
      alLookup (mockRequestMap initState (dumpRequestMapValue rm)).mockMap.get url = none) ∧
    (∀ url v, alLookup rm.delete url = some v →
      ∃ h, alLookup (mockRequestMap initState (dumpRequestMapValue rm)).mockMap.delete url
          = some h ∧ ∀ arg, h arg = some (mockResponse 200 (.str v))) ∧
    (∀ url, alLookup rm.delete url = none →
      alLookup (mockRequestMap initState (dumpRequestMapValue rm)).mockMap.delete url
        = none) ∧
    (∀ url inner, alLookup rm.post url = some inner →
      ∃ h, alLookup (mockRequestMap initState (dumpRequestMapValue rm)).mockMap.post url
          = some h ∧ ∀ arg, h arg =
            (alLookup inner (arg.requestBody.getD "undefined")).map
              (fun v => mockResponse 200 (.str v))) ∧
    (∀ url, alLookup rm.post url = none →
      alLookup (mockRequestMap initState (dumpRequestMapValue rm)).mockMap.post url = none) ∧
    (∀ url inner, alLookup rm.put url = some inner →
      ∃ h, alLookup (mockRequestMap initState (dumpRequestMapValue rm)).mockMap.put url
          = some h ∧ ∀ arg, h arg =
            (alLookup inner (arg.requestBody.getD "undefined")).map
              (fun v => mockResponse 200 (.str v))) ∧
    (∀ url, alLookup rm.put url = none →
      alLookup (mockRequestMap initState (dumpRequestMapValue rm)).mockMap.put url = none) ∧
    (∀ v : String, (mockResponse 200 (.str v)).status = 200) ∧
    promiseMockedResponse (mockResponse 200 (.str "OK")) = .ok none := by
  obtain ⟨hdn, hgn, hpn, hqn, hpi, hqi⟩ := hwf
  have hmm := mockRequestMap_mockMap initState (dumpRequestMapValue rm)
  refine ⟨?_, ?_, ?_, ?_, ?_, ?_, ?_, ?_, fun _ => rfl, rfl⟩
  · intro url v hv
    rw [hmm]
    simp only [dumpRequestMapValue]
    rw [alLookup_foldl_insert]
    rw [if_pos ((mem_keys_sortByKey rm.get url).2 (mem_keys_of_alLookup hv))]
    refine ⟨_, rfl, fun arg => ?_⟩
    simp only [getMapHandler, dumpRequestMapValue]
    rw [alLookup_sortByKey rm.get hgn, hv]
    rfl
  · intro url hv
    rw [hmm]
    simp only [dumpRequestMapValue]
    rw [alLookup_foldl_insert]
    rw [if_neg (fun hmem => ((alLookup_eq_none_iff rm.get url).1 hv)
      ((mem_keys_sortByKey rm.get url).1 hmem))]
    rfl
  · intro url v hv
    rw [hmm]
    simp only [dumpRequestMapValue]
    rw [alLookup_foldl_insert]
    rw [if_pos ((mem_keys_sortByKey rm.delete url).2 (mem_keys_of_alLookup hv))]
    refine ⟨_, rfl, fun arg => ?_⟩
    simp only [deleteMapHandler, dumpRequestMapValue]
    rw [alLookup_sortByKey rm.delete hdn, hv]
    rfl
  · intro url hv
    rw [hmm]
    simp only [dumpRequestMapValue]
    rw [alLookup_foldl_insert]
    rw [if_neg (fun hmem => ((alLookup_eq_none_iff rm.delete url).1 hv)
      ((mem_keys_sortByKey rm.delete url).1 hmem))]
    rfl
  · intro url inner hv
    rw [hmm]
    simp only [dumpRequestMapValue]
    rw [alLookup_foldl_insert, map_value_keys]
    rw [if_pos ((mem_keys_sortByKey rm.post url).2 (mem_keys_of_alLookup hv))]
    refine ⟨_, rfl, fun arg => ?_⟩
    simp only [postMapHandler, dumpRequestMapValue]
    rw [alLookup_map_value, alLookup_sortByKey rm.post hpn, hv, getD_map_some]
    rw [alLookup_sortByKey inner (hpi (url, inner) (alLookup_mem hv))]
    cases halu : alLookup inner (arg.requestBody.getD "undefined") <;> rfl
  · intro url hv
    rw [hmm]
    simp only [dumpRequestMapValue]
    rw [alLookup_foldl_insert, map_value_keys]
    rw [if_neg (fun hmem => ((alLookup_eq_none_iff rm.post url).1 hv)
      ((mem_keys_sortByKey rm.post url).1 hmem))]
    rfl
  · intro url inner hv
    rw [hmm]
    simp only [dumpRequestMapValue]
    rw [alLookup_foldl_insert]
    rw [if_pos ((mem_keys_sortByKey rm.put url).2 (mem_keys_of_alLookup hv))]
    refine ⟨_, rfl, fun arg => ?_⟩
    simp only [putMapHandler, dumpRequestMapValue]
    rw [alLookup_sortByKey rm.put hqn, hv, getD_some]
    cases halu : alLookup inner (arg.requestBody.getD "undefined") <;> rfl
  · intro url hv
    rw [hmm]
    simp only [dumpRequestMapValue]
    rw [alLookup_foldl_insert]
    rw [if_neg (fun hmem => ((alLookup_eq_none_iff rm.put url).1 hv)
      ((mem_keys_sortByKey rm.put url).1 hmem))]
    rfl

/-- Witness for C8 on a small concrete recorded map: the re-imported
registry answers the recorded GET URL with the status-200 `"OK"` marker,
has no handler for an unrecorded URL, answers the recorded POST body and
declines an unrecorded POST body. -/
theorem dump_mockRequestMap_round_trip_witness :
    ((alLookup (mockRequestMap initState (dumpRequestMapValue rmFixture)).mockMap.get
        "/g").map (fun h => h ⟨[], none, "/g"⟩))
      = some (some (mockResponse 200 (.str "OK"))) ∧
    alLookup (mockRequestMap initState (dumpRequestMapValue rmFixture)).mockMap.get
        "/missing" = none ∧
    ((alLookup (mockRequestMap initState (dumpRequestMapValue rmFixture)).mockMap.post
        "/p").map (fun h => h ⟨[], some "bodyA", "/p"⟩))
      = some (some (mockResponse 200 (.str "OK"))) ∧
    ((alLookup (mockRequestMap initState (dumpRequestMapValue rmFixture)).mockMap.post
        "/p").map (fun h => h ⟨[], some "nope", "/p"⟩)) = some none := by
  have t := dump_mockRequestMap_round_trip rmFixture
    (by unfold TrafficMap.WF; refine ⟨?_, ?_, ?_, ?_, ?_, ?_⟩ <;> decide)
  refine ⟨?_, t.2.1 "/missing" rfl, ?_, ?_⟩
  · obtain ⟨h, hl, hv⟩ := t.1 "/g" "OK" rfl
    rw [hl]
    show some (h ⟨[], none, "/g"⟩) = some (some (mockResponse 200 (.str "OK")))
    rw [hv ⟨[], none, "/g"⟩]
  · obtain ⟨h, hl, hv⟩ := t.2.2.2.2.1 "/p" [("bodyA", "OK")] rfl
    rw [hl]
    show some (h ⟨[], some "bodyA", "/p"⟩) = some (some (mockResponse 200 (.str "OK")))
    rw [hv ⟨[], some "bodyA", "/p"⟩]
    rfl
  · obtain ⟨h, hl, hv⟩ := t.2.2.2.2.1 "/p" [("bodyA", "OK")] rfl
    rw [hl]
    show some (h ⟨[], some "nope", "/p"⟩) = some none
    rw [hv ⟨[], some "nope", "/p"⟩]
    rfl

end HttpMock
